import Mathlib

/-!
Verification of the overtime computation engine of `mileiq_dashboard.py`.

The engine (the "Overtime Calculator" tab, lines 159-264 of the source) is a
pure batch computation over parsed trip rows.  We shallowly embed it here:

* calendar dates are rata-die day numbers (`ℤ`, days since 1970-01-01), with
  proleptic-Gregorian conversions `days_from_civil` / `civil_from_days`;
* times of day are seconds since midnight (`ℤ`); the Python code works with
  `pandas` timestamps and computes `total_seconds() / 3600.0`, so a time
  difference of `d` seconds is `d / 3600` hours — we keep `d : ℤ` and move to
  `ℚ` only in theorem statements;
* overtime hours are kept in half-hour units (`hours2 : ℤ`, so that the
  Python float `hours` equals `hours2 / 2`); the Python rounding
  `math.ceil(diff_hours * 2) / 2` becomes `ceilDiv diff 1800` half-hours for a
  difference of `diff` seconds, an exact correspondence;
* the location normalizer `extract_postcode` is embedded over `List Char`,
  including the two postcode regular expressions with Python's
  leftmost-and-greedy `re.search` semantics (ASCII model of `\b` and of the
  IGNORECASE character classes).
-/

/-! ## Data model -/

/-- A Python value passed to `extract_postcode`: either a string or a
non-string value (the code only tests `isinstance(location, str)`). -/
inductive PyVal where
  | pstr (s : String)
  | nonStr
deriving DecidableEq

/-- One parsed trip row, as used by the overtime tab: the parsed
`End Time Parsed` timestamp (split into calendar day and second-of-day) and
the normalized `End Postcode`.  `day` is a rata-die day number and `tod` is
seconds since midnight. -/
structure Trip where
  day : ℤ
  tod : ℤ
  endCode : String
deriving DecidableEq

/-- One emitted overtime row (source lines 240-248).  The Python dict always
carries the `"Home Arrival"` key; `homeArrival` is an `Option` so that the
spec's "absent" is representable, and the embedding always stores `some`.
`hours2` is the overtime in half-hour units (`hours2 = 2 * hours`). -/
structure OvertimeRecord where
  day : ℤ
  homeArrival : Option ℤ
  hours2 : ℤ
  fullDay : Bool
deriving DecidableEq

/-- The overtime hours of a record as a rational number, in hours
(the Python float `hours`). -/
def OvertimeRecord.hoursQ (r : OvertimeRecord) : ℚ := (r.hours2 : ℚ) / 2

/-! ## Character classes and string helpers (ASCII model of Python `str`) -/

def isUpperAlpha (c : Char) : Bool := 'A' ≤ c && c ≤ 'Z'

def isLowerAlpha (c : Char) : Bool := 'a' ≤ c && c ≤ 'z'

/-- A letter, case-insensitively: the regexes are compiled with
`re.IGNORECASE`, so `[A-Z]` matches both cases. -/
def isAlphaI (c : Char) : Bool := isUpperAlpha c || isLowerAlpha c

def isDigitC (c : Char) : Bool := '0' ≤ c && c ≤ '9'

/-- A word character for `\b` (ASCII model of Python's `\w`). -/
def isWordC (c : Char) : Bool := isAlphaI c || isDigitC c || c == '_'

/-- The class `[0-9R]` under IGNORECASE. -/
def classDigitR (c : Char) : Bool := isDigitC c || c == 'R' || c == 'r'

/-- The class `[0-9A-Z]` under IGNORECASE. -/
def classAlnumI (c : Char) : Bool := isDigitC c || isAlphaI c

/-- The class `[ABD-HJLNP-UW-Z]` under IGNORECASE: any letter except
C, I, K, M, O, V. -/
def classFinalPair (c : Char) : Bool :=
  isAlphaI c && !(c.toUpper == 'C' || c.toUpper == 'I' || c.toUpper == 'K' ||
    c.toUpper == 'M' || c.toUpper == 'O' || c.toUpper == 'V')

/-- Whitespace stripped by Python's `str.strip()` (ASCII model). -/
def isSpaceChar (c : Char) : Bool :=
  c == ' ' || c == '\t' || c == '\n' || c == '\r' || c == '\x0b' || c == '\x0c'

/-- `str.strip()`: drop leading and trailing whitespace. -/
def trimChars (cs : List Char) : List Char :=
  ((cs.dropWhile isSpaceChar).reverse.dropWhile isSpaceChar).reverse

/-- `str.lower()` (ASCII model). -/
def lowerChars (cs : List Char) : List Char := cs.map Char.toLower

/-- Does `needle` occur at the head of `hay`? -/
def startsWithChars : List Char → List Char → Bool
  | [], _ => true
  | _ :: _, [] => false
  | a :: as, b :: bs => a == b && startsWithChars as bs

/-- Python's `needle in hay` substring test. -/
def hasSubChars (needle : List Char) : List Char → Bool
  | [] => needle.isEmpty
  | c :: cs => startsWithChars needle (c :: cs) || hasSubChars needle cs

/-! ## The two postcode regexes (source lines 16-17)

`POSTCODE_FULL_RE = \b([A-Z]{1,2}[0-9R][0-9A-Z]?) ?[0-9][ABD-HJLNP-UW-Z]{2}\b`
`POSTCODE_PARTIAL_RE = \b([A-Z]{1,2}[0-9R][0-9A-Z]?)\b`

both IGNORECASE.  `re.search` returns the leftmost match; at a given start
position the quantifiers backtrack greedily: `{1,2}` tries two letters before
one, and each `?` tries presence before absence. -/

/-- Is position `i` (0-based, may equal the length) on a word character? -/
def wordAt (s : List Char) (i : Nat) : Bool :=
  match s[i]? with
  | some c => isWordC c
  | none => false

/-- Word boundary `\b` before position `i`. -/
def boundaryAt (s : List Char) (i : Nat) : Bool :=
  match i with
  | 0 => wordAt s 0
  | j + 1 => wordAt s (j + 1) != wordAt s j

def charClassAt (cl : Char → Bool) (s : List Char) (i : Nat) : Bool :=
  match s[i]? with
  | some c => cl c
  | none => false

/-- `k` consecutive letters starting at `i`. -/
def lettersAt (s : List Char) (i k : Nat) : Bool :=
  (List.range k).all fun j => charClassAt isAlphaI s (i + j)

/-- The capture group `[A-Z]{1,2}[0-9R][0-9A-Z]?` with `k` letters and `o`
(0 or 1) optional trailing alphanumerics, starting at `i`. -/
def groupOkAt (s : List Char) (i k o : Nat) : Bool :=
  lettersAt s i k && charClassAt classDigitR s (i + k) &&
    (o == 0 || charClassAt classAlnumI s (i + k + 1))

/-- The tail `[0-9][ABD-HJLNP-UW-Z]{2}\b` starting at `p`. -/
def fullTailAt (s : List Char) (p : Nat) : Bool :=
  charClassAt isDigitC s p && charClassAt classFinalPair s (p + 1) &&
    charClassAt classFinalPair s (p + 2) && boundaryAt s (p + 3)

/-- The tail ` ?[0-9][ABD-HJLNP-UW-Z]{2}\b` starting at `p` (greedy: the
optional space is tried first). -/
def fullTailSpAt (s : List Char) (p : Nat) : Bool :=
  (charClassAt (fun c => c == ' ') s p && fullTailAt s (p + 1)) || fullTailAt s p

def sliceChars (s : List Char) (i len : Nat) : List Char := (s.drop i).take len

/-- Try the full-postcode regex at start position `i`; on success return the
capture group.  Candidate group shapes in backtracking priority order:
`(k, o) = (2,1), (2,0), (1,1), (1,0)`; the group has length `k + 1 + o`. -/
def tryFullAt (s : List Char) (i : Nat) : Option (List Char) :=
  if boundaryAt s i then
    if groupOkAt s i 2 1 && fullTailSpAt s (i + 4) then some (sliceChars s i 4)
    else if groupOkAt s i 2 0 && fullTailSpAt s (i + 3) then some (sliceChars s i 3)
    else if groupOkAt s i 1 1 && fullTailSpAt s (i + 3) then some (sliceChars s i 3)
    else if groupOkAt s i 1 0 && fullTailSpAt s (i + 2) then some (sliceChars s i 2)
    else none
  else none

/-- Try the partial (outward-only) regex at start position `i`. -/
def tryPartialAt (s : List Char) (i : Nat) : Option (List Char) :=
  if boundaryAt s i then
    if groupOkAt s i 2 1 && boundaryAt s (i + 4) then some (sliceChars s i 4)
    else if groupOkAt s i 2 0 && boundaryAt s (i + 3) then some (sliceChars s i 3)
    else if groupOkAt s i 1 1 && boundaryAt s (i + 3) then some (sliceChars s i 3)
    else if groupOkAt s i 1 0 && boundaryAt s (i + 2) then some (sliceChars s i 2)
    else none
  else none

/-- `re.search`: the match at the leftmost start position that admits one. -/
def searchWith (tr : List Char → Nat → Option (List Char)) (s : List Char) :
    Option (List Char) :=
  (List.range (s.length + 1)).findSome? (tr s)

/-- `extract_postcode` (source lines 20-33): normalize free-text location to
an outward UK postcode.  Non-string input yields `""`; `"home"` (after
strip + lower) maps to `"UB3"`; a location containing `"rico pudo"` maps to
`"UB7"`; otherwise the full regex is searched on the original text, then the
partial one, the capture group being uppercased; no match yields `""`. -/
def extract_postcode (location : PyVal) : String :=
  match location with
  | PyVal.nonStr => ""
  | PyVal.pstr location =>
    let loc := lowerChars (trimChars location.toList)
    if loc == "home".toList then "UB3"
    else if hasSubChars ("rico pudo".toList) loc then "UB7"
    else
      match searchWith tryFullAt location.toList with
      | some g => String.mk (g.map Char.toUpper)
      | none =>
        match searchWith tryPartialAt location.toList with
        | some g => String.mk (g.map Char.toUpper)
        | none => ""

/-! ## Calendar arithmetic -/

/-- Rata-die day number (days since 1970-01-01) of a proleptic-Gregorian
civil date; used here only for dates well after 1970, where every integer
division below has nonnegative operands. -/
def days_from_civil (y m d : ℤ) : ℤ :=
  let y' := if m ≤ 2 then y - 1 else y
  let era := (if 0 ≤ y' then y' else y' - 399) / 400
  let yoe := y' - era * 400
  let mp := if 2 < m then m - 3 else m + 9
  let doy := (153 * mp + 2) / 5 + d - 1
  let doe := yoe * 365 + yoe / 4 - yoe / 100 + doy
  era * 146097 + doe - 719468

/-- Inverse of `days_from_civil`: the civil date `(y, m, d)` of a rata-die
day number. -/
def civil_from_days (z : ℤ) : ℤ × ℤ × ℤ :=
  let z' := z + 719468
  let era := (if 0 ≤ z' then z' else z' - 146096) / 146097
  let doe := z' - era * 146097
  let yoe := (doe - doe / 1460 + doe / 36524 - doe / 146096) / 365
  let y := yoe + era * 400
  let doy := doe - (365 * yoe + yoe / 4 - yoe / 100)
  let mp := (5 * doy + 2) / 153
  let d := doy - (153 * mp + 2) / 5 + 1
  let m := if mp < 10 then mp + 3 else mp - 9
  (if m ≤ 2 then y + 1 else y, m, d)

/-- Python's `datetime.weekday()`: Monday = 0, ..., Saturday = 5, Sunday = 6.
1970-01-01 was a Thursday (3). -/
def pyWeekday (z : ℤ) : ℤ := (z + 3) % 7

/-- Month abbreviations used by `strftime("%b")`. -/
def monthAbbrev (m : ℤ) : String :=
  ["Jan", "Feb", "Mar", "Apr", "May", "Jun",
   "Jul", "Aug", "Sep", "Oct", "Nov", "Dec"].getD (m - 1).toNat ""

/-- Two-digit zero-padded day-of-month, as in `strftime("%d")`. -/
def two_digit (n : ℤ) : String :=
  if n < 10 then "0" ++ toString n else toString n

/-- The `"%d-%b-%Y"` date string stored in the `"Date"` column
(source line 242). -/
def fmtDate (z : ℤ) : String :=
  match civil_from_days z with
  | (y, m, d) => two_digit d ++ "-" ++ monthAbbrev m ++ "-" ++ toString y

/-! ## The overtime rule engine (source lines 193-254) -/

/-- `get_cutoff_time` (source lines 193-197), in seconds since midnight:
`16:30` (= 59400 s) when `day_of_week >= 5` (Saturday = 5, Sunday = 6),
else `17:30` (= 63000 s). -/
def get_cutoff_time (day_of_week : ℤ) : ℤ :=
  if 5 ≤ day_of_week then 59400 else 63000

/-- `math.ceil (a / b)` for integers with `0 < b`: Lean's `Int` division
rounds toward minus infinity for positive divisors, so the ceiling is
`-((-a) / b)`. -/
def ceilDiv (a b : ℤ) : ℤ := -((-a) / b)

/-- Source line 215-217: the last row of the day's `"UB3"`-ending events
after a stable ascending sort by timestamp, i.e. the latest home arrival,
the later of ties winning. -/
def latestHome (events : List Trip) : Option Trip :=
  (events.filter fun e => e.endCode == "UB3").foldl
    (fun acc e =>
      match acc with
      | none => some e
      | some a => if a.tod ≤ e.tod then some e else some a)
    none

/-- The per-day body of the loop at source lines 214-248.  A day with no
`"UB3"` arrival is skipped (`continue`, line 218-219).  Otherwise, if the day
is in `off_days`, a full-day record is emitted (`hours = 7.5`, flag set,
lines 227-229; `7.5 > 0` so line 239 always appends).  Otherwise
`diff_hours = (arrival - cutoff).total_seconds() / 3600`; if positive, hours
are `min (ceil (diff_hours * 2) / 2) 7.5` — in half-hour units
`min (ceilDiv diff 1800) 15` for `diff` seconds — with the flag set iff the
capped value is exactly `7.5`, and the record is emitted iff `hours > 0`. -/
def computeDay (offDays : Finset ℤ) (day : ℤ) (events : List Trip) :
    Option OvertimeRecord :=
  match latestHome events with
  | none => none
  | some arr =>
    if day ∈ offDays then
      some ⟨day, some arr.tod, 15, true⟩
    else
      let diff := arr.tod - get_cutoff_time (pyWeekday arr.day)
      if 0 < diff then
        let h := min (ceilDiv diff 1800) 15
        if 0 < h then some ⟨day, some arr.tod, h, decide (h = 15)⟩ else none
      else none

/-- Python's `sorted` on the two selected dates (source line 202). -/
def sorted2 (a b : ℤ) : ℤ × ℤ := if a ≤ b then (a, b) else (b, a)

/-- `off_days` (source lines 200-210): from the two dates picked in the
multiselect, `S, T = sorted(sel)` and
`off_days = { S-2, S-1, T+1, T+2 }` — the offsets are applied to the
earlier and later selection respectively, whatever their weekdays. -/
def offDaysFromSel (a b : ℤ) : Finset ℤ :=
  {(sorted2 a b).1 - 2, (sorted2 a b).1 - 1, (sorted2 a b).2 + 1, (sorted2 a b).2 + 2}

/-- Modelled from the spec (section 3, WorkPattern): the off-day set as the
union over every worked Sunday `S` of `{ S-2, S-1 }` and over every
worked Saturday `T` of `{ T+1, T+2 }`.  Used only to compare the code's
`off_days` against the spec's formula. -/
def specOffDays (sundays saturdays : List ℤ) : Finset ℤ :=
  (sundays.map fun S => ({S - 2, S - 1} : Finset ℤ)).foldr (· ∪ ·) ∅ ∪
    (saturdays.map fun T => ({T + 1, T + 2} : Finset ℤ)).foldr (· ∪ ·) ∅

/-- The group keys of `raw_df.groupby(... .dt.date)` (source line 214):
the distinct days, ascending. -/
def groupDays (trips : List Trip) : List ℤ :=
  List.insertionSort (· ≤ ·) (trips.map fun t => t.day).dedup

/-- The rows of one groupby bucket, in input order. -/
def dayBucket (trips : List Trip) (d : ℤ) : List Trip :=
  trips.filter fun t => t.day == d

/-- `overtime_rows` (source lines 213-248): one candidate record per day with
events, in ascending day order, days without overtime omitted. -/
def overtimeRows (offDays : Finset ℤ) (trips : List Trip) :
    List OvertimeRecord :=
  (groupDays trips).filterMap fun d => computeDay offDays d (dayBucket trips d)

/-- Lexicographic strict order on character lists by code point — Python's
string `<`. -/
def strLtChars : List Char → List Char → Bool
  | [], [] => false
  | [], _ :: _ => true
  | _ :: _, [] => false
  | a :: as, b :: bs => if a < b then true else if b < a then false else strLtChars as bs

/-- String less-or-equal used to model the ascending sort. -/
def strLeB (s t : String) : Bool := !strLtChars t.toList s.toList

/-- `overtime_df` (source lines 250-254): the rows sorted ascending by the
`"Date"` column — which holds the formatted `"%d-%b-%Y"` STRING, so the sort
is lexicographic on those strings. -/
def overtimeTable (offDays : Finset ℤ) (trips : List Trip) :
    List OvertimeRecord :=
  List.insertionSort (fun a b => strLeB (fmtDate a.day) (fmtDate b.day) = true)
    (overtimeRows offDays trips)

/-- A concrete run exercising the final sort: home arrivals after the cutoff
on Sunday 2024-03-10 (20:00) and on Tuesday 2024-04-09 (19:00). -/
def tripsC2 : List Trip :=
  [⟨days_from_civil 2024 3 10, 72000, "UB3"⟩,
   ⟨days_from_civil 2024 4 9, 68400, "UB3"⟩]

/-! ## Helper lemmas -/

/-- `ceilDiv` really is the rational ceiling of the quotient. -/
theorem ceilDiv_eq_ceil (a b : ℤ) (hb : 0 < b) :
    ceilDiv a b = ⌈(a : ℚ) / (b : ℚ)⌉ := by
  have hbq : (0 : ℚ) < (b : ℚ) := by exact_mod_cast hb
  have hmod : b * (-a / b) + -a % b = -a := Int.ediv_add_emod (-a) b
  have hr0 : (0 : ℤ) ≤ -a % b := Int.emod_nonneg _ (by omega)
  have hrb : -a % b < b := Int.emod_lt_of_pos _ hb
  have hcast : (b : ℚ) * ((-a / b : ℤ) : ℚ) + ((-a % b : ℤ) : ℚ) = -(a : ℚ) := by
    exact_mod_cast congrArg (fun z : ℤ => (z : ℚ)) hmod
  have hr0q : (0 : ℚ) ≤ ((-a % b : ℤ) : ℚ) := by exact_mod_cast hr0
  have hrbq : ((-a % b : ℤ) : ℚ) < (b : ℚ) := by exact_mod_cast hrb
  symm
  rw [Int.ceil_eq_iff]
  have hcd : ((ceilDiv a b : ℤ) : ℚ) = -((-a / b : ℤ) : ℚ) := by
    simp [ceilDiv]
  constructor
  · rw [hcd]
    rw [lt_div_iff₀ hbq]
    nlinarith [hcast, hrbq]
  · rw [hcd, div_le_iff₀ hbq]
    nlinarith [hcast, hr0q]

/-- A positive difference always rounds up to at least one half-hour unit. -/
theorem one_le_ceilDiv (a b : ℤ) (ha : 0 < a) (hb : 0 < b) : 1 ≤ ceilDiv a b := by
  have h : -a / b < 0 := Int.ediv_neg' (by omega) hb
  unfold ceilDiv
  omega

/-- Half-unit hours equal `7.5` exactly when the half-unit count is `15`. -/
theorem half_eq_full_iff (x : ℤ) : (x : ℚ) / 2 = 15 / 2 ↔ x = 15 := by
  constructor
  · intro h
    have hx : (x : ℚ) = 15 := by linarith
    exact_mod_cast hx
  · intro h
    subst h
    norm_num

/-- Unfolding `computeDay` when the day has a latest home arrival. -/
theorem computeDay_some (offDays : Finset ℤ) (day : ℤ) (events : List Trip)
    (arr : Trip) (hl : latestHome events = some arr) :
    computeDay offDays day events =
      if day ∈ offDays then some ⟨day, some arr.tod, 15, true⟩
      else
        if 0 < arr.tod - get_cutoff_time (pyWeekday arr.day) then
          if 0 < min (ceilDiv (arr.tod - get_cutoff_time (pyWeekday arr.day)) 1800) 15 then
            some ⟨day, some arr.tod,
              min (ceilDiv (arr.tod - get_cutoff_time (pyWeekday arr.day)) 1800) 15,
              decide (min (ceilDiv (arr.tod - get_cutoff_time (pyWeekday arr.day)) 1800) 15 = 15)⟩
          else none
        else none := by
  unfold computeDay
  rw [hl]

/-- Unfolding `computeDay` when the day has no home arrival. -/
theorem computeDay_none (offDays : Finset ℤ) (day : ℤ) (events : List Trip)
    (hl : latestHome events = none) :
    computeDay offDays day events = none := by
  unfold computeDay
  rw [hl]

/-! ## Claim theorems -/

/-- Claim C8 (confirmed): the day's cutoff is a fixed two-valued lookup keyed
only by the Python weekday (`get_cutoff_time` takes nothing else): 16:30
(59400 s) when the day is Saturday (5) or Sunday (6), 17:30 (63000 s)
otherwise. -/
theorem claim_C8 (day_of_week : ℤ) (h1 : 0 ≤ day_of_week) (h2 : day_of_week < 7) :
    get_cutoff_time day_of_week =
      if day_of_week = 5 ∨ day_of_week = 6 then 59400 else 63000 := by
  unfold get_cutoff_time
  split_ifs <;> omega

/-- Witness for C8 at Sunday (weekday 6). -/
theorem claim_C8_witness :
    (0 : ℤ) ≤ 6 ∧ (6 : ℤ) < 7 ∧
      get_cutoff_time 6 = if (6 : ℤ) = 5 ∨ (6 : ℤ) = 6 then 59400 else 63000 :=
  ⟨by decide, by decide, claim_C8 6 (by decide) (by decide)⟩

/-- Claim C10 (confirmed): for selected dates `a < b` the derived off-day set
`{a-2, a-1, b+1, b+2}` contains neither `a` nor `b`. -/
theorem claim_C10 (a b : ℤ) (h : a < b) :
    a ∉ offDaysFromSel a b ∧ b ∉ offDaysFromSel a b := by
  have hab : a ≤ b := h.le
  simp only [offDaysFromSel, sorted2, if_pos hab, Finset.mem_insert,
    Finset.mem_singleton]
  omega

/-- Witness for C10 at the pair (0, 5). -/
theorem claim_C10_witness :
    (0 : ℤ) < 5 ∧ ((0 : ℤ) ∉ offDaysFromSel 0 5 ∧ (5 : ℤ) ∉ offDaysFromSel 0 5) :=
  ⟨by decide, claim_C10 0 5 (by decide)⟩

/-- Claim C4 (corrected), counterexample: the code's `off_days` is NOT the
union over worked Sundays of `{S-2, S-1}` and worked Saturdays of
`{T+1, T+2}`.  Selecting worked Saturday 2024-03-16 together with worked
Sunday 2024-03-24 (Saturday earlier), the code applies `-2, -1` to the
Saturday and `+1, +2` to the Sunday, yielding
`{2024-03-14, 2024-03-15, 2024-03-25, 2024-03-26}`, while the claim's
formula yields `{2024-03-22, 2024-03-23, 2024-03-17, 2024-03-18}`. -/
theorem claim_C4_counterexample :
    pyWeekday (days_from_civil 2024 3 16) = 5 ∧
    pyWeekday (days_from_civil 2024 3 24) = 6 ∧
    offDaysFromSel (days_from_civil 2024 3 16) (days_from_civil 2024 3 24) =
      {days_from_civil 2024 3 14, days_from_civil 2024 3 15,
       days_from_civil 2024 3 25, days_from_civil 2024 3 26} ∧
    specOffDays [days_from_civil 2024 3 24] [days_from_civil 2024 3 16] =
      {days_from_civil 2024 3 22, days_from_civil 2024 3 23,
       days_from_civil 2024 3 17, days_from_civil 2024 3 18} ∧
    offDaysFromSel (days_from_civil 2024 3 16) (days_from_civil 2024 3 24) ≠
      specOffDays [days_from_civil 2024 3 24] [days_from_civil 2024 3 16] := by
  decide

/-- Claim C4 (corrected), amended: the off-day set is
`{S-2, S-1, T+1, T+2}` where `S` is the EARLIER and `T` the LATER of the two
selected dates, regardless of their weekdays; in particular, for selected
worked Sunday 2024-03-10 and worked Saturday 2024-03-16 it equals
`{2024-03-08, 2024-03-09, 2024-03-17, 2024-03-18}` as the claim states. -/
theorem claim_C4_amended :
    (∀ a b : ℤ, offDaysFromSel a b =
      {min a b - 2, min a b - 1, max a b + 1, max a b + 2}) ∧
    offDaysFromSel (days_from_civil 2024 3 10) (days_from_civil 2024 3 16) =
      {days_from_civil 2024 3 8, days_from_civil 2024 3 9,
       days_from_civil 2024 3 17, days_from_civil 2024 3 18} ∧
    pyWeekday (days_from_civil 2024 3 10) = 6 ∧
    pyWeekday (days_from_civil 2024 3 16) = 5 := by
  refine ⟨fun a b => ?_, by decide, by decide, by decide⟩
  by_cases hab : a ≤ b
  · simp [offDaysFromSel, sorted2, hab, min_eq_left hab, max_eq_right hab]
  · have hba : b ≤ a := le_of_not_le hab
    simp [offDaysFromSel, sorted2, hab, min_eq_right hba, max_eq_left hba]

/-- Claim C1 (corrected), counterexample: 2024-03-08 is in the off-day set
derived from selected dates 2024-03-10 and 2024-03-16 and has activity (one
trip), but that trip does not end at the home code, so no home arrival
exists — and the engine emits NOTHING for the day, not a 7.5-hour record:
the `continue` at source lines 218-219 runs before the off-day check. -/
theorem claim_C1_counterexample :
    days_from_civil 2024 3 8 ∈
      offDaysFromSel (days_from_civil 2024 3 10) (days_from_civil 2024 3 16) ∧
    ([(⟨days_from_civil 2024 3 8, 36000, "AB1"⟩ : Trip)] : List Trip) ≠ [] ∧
    latestHome [(⟨days_from_civil 2024 3 8, 36000, "AB1"⟩ : Trip)] = none ∧
    computeDay (offDaysFromSel (days_from_civil 2024 3 10) (days_from_civil 2024 3 16))
      (days_from_civil 2024 3 8)
      [(⟨days_from_civil 2024 3 8, 36000, "AB1"⟩ : Trip)] = none := by
  decide

/-- Claim C1 (corrected), amended: for every day in the off-day set that has
a latest home arrival (an event with `end_code` equal to the home code), the
engine emits a full-day record — `overtime_hours` exactly 7.5, flag set —
regardless of the arrival time; a day in the off-day set whose activity
includes no home arrival emits nothing. -/
theorem claim_C1_amended (offDays : Finset ℤ) (day : ℤ) (events : List Trip)
    (arr : Trip) (hmem : day ∈ offDays) (hlh : latestHome events = some arr) :
    ∃ r, computeDay offDays day events = some r ∧
      r.hoursQ = 15 / 2 ∧ r.fullDay = true ∧ r.homeArrival = some arr.tod := by
  refine ⟨⟨day, some arr.tod, 15, true⟩, ?_, ?_, rfl, rfl⟩
  · rw [computeDay_some offDays day events arr hlh, if_pos hmem]
  · unfold OvertimeRecord.hoursQ
    norm_num

/-- Witness for C1 (amended) on an off day whose single trip arrives home at
10:00 — far before any cutoff, yet compensated as a full day. -/
theorem claim_C1_witness :
    (0 : ℤ) ∈ ({0} : Finset ℤ) ∧
    latestHome [(⟨0, 36000, "UB3"⟩ : Trip)] = some ⟨0, 36000, "UB3"⟩ ∧
    (∃ r, computeDay {0} 0 [(⟨0, 36000, "UB3"⟩ : Trip)] = some r ∧
      r.hoursQ = 15 / 2 ∧ r.fullDay = true ∧
      r.homeArrival = some (⟨0, 36000, "UB3"⟩ : Trip).tod) :=
  ⟨by decide, by rfl,
    claim_C1_amended {0} 0 [⟨0, 36000, "UB3"⟩] ⟨0, 36000, "UB3"⟩ (by decide) (by rfl)⟩

/-- Claim C3 (corrected), counterexample: a full-day (off-day branch) record
does carry a home arrival — the Python dict always stores the
`"Home Arrival"` key (source line 244), for full-day records too. -/
theorem claim_C3_counterexample :
    computeDay ({0} : Finset ℤ) 0 [(⟨0, 36000, "UB3"⟩ : Trip)] =
      some ⟨0, some 36000, 15, true⟩ ∧
    (⟨0, some 36000, 15, true⟩ : OvertimeRecord).fullDay = true ∧
    (⟨0, some 36000, 15, true⟩ : OvertimeRecord).homeArrival ≠ none := by
  decide

/-- Claim C3 (corrected), amended: EVERY emitted record — full-day or
cutoff-based — carries the latest arrival-at-home time of the day. -/
theorem claim_C3_amended (offDays : Finset ℤ) (day : ℤ) (events : List Trip)
    (r : OvertimeRecord) (h : computeDay offDays day events = some r) :
    ∃ arr, latestHome events = some arr ∧ r.homeArrival = some arr.tod := by
  cases hl : latestHome events with
  | none =>
    rw [computeDay_none offDays day events hl] at h
    simp at h
  | some arr =>
    rw [computeDay_some offDays day events arr hl] at h
    refine ⟨arr, rfl, ?_⟩
    split_ifs at h <;>
      (injection h with h'
       subst h'
       rfl)

/-- Witness for C3 (amended) on a cutoff-branch record. -/
theorem claim_C3_witness :
    computeDay ∅ 2 [(⟨2, 68400, "UB3"⟩ : Trip)] = some ⟨2, some 68400, 5, false⟩ ∧
    (∃ arr, latestHome [(⟨2, 68400, "UB3"⟩ : Trip)] = some arr ∧
      (⟨2, some 68400, 5, false⟩ : OvertimeRecord).homeArrival = some arr.tod) :=
  ⟨by decide, claim_C3_amended ∅ 2 [⟨2, 68400, "UB3"⟩] ⟨2, some 68400, 5, false⟩ (by decide)⟩

/-- Claim C6 (confirmed): every emitted record, via either branch, has
`overtime_hours ≤ 7.5`; and in the cutoff branch (day not in the off-day
set) the full-day flag is set exactly when the capped hours equal 7.5. -/
theorem claim_C6 (offDays : Finset ℤ) (day : ℤ) (events : List Trip)
    (r : OvertimeRecord) (h : computeDay offDays day events = some r) :
    r.hoursQ ≤ 15 / 2 ∧
      (day ∉ offDays → (r.fullDay = true ↔ r.hoursQ = 15 / 2)) := by
  cases hl : latestHome events with
  | none =>
    rw [computeDay_none offDays day events hl] at h
    simp at h
  | some arr =>
    rw [computeDay_some offDays day events arr hl] at h
    split_ifs at h with h1 h2 h3
    · injection h with h'
      subst h'
      refine ⟨by norm_num [OvertimeRecord.hoursQ], fun hno => absurd h1 hno⟩
    · injection h with h'
      subst h'
      have hle : min (ceilDiv (arr.tod - get_cutoff_time (pyWeekday arr.day)) 1800) 15
          ≤ 15 := min_le_right _ _
      constructor
      · show ((min (ceilDiv (arr.tod - get_cutoff_time (pyWeekday arr.day)) 1800) 15 : ℤ) : ℚ) / 2
          ≤ 15 / 2
        have hq : ((min (ceilDiv (arr.tod - get_cutoff_time (pyWeekday arr.day)) 1800) 15 : ℤ) : ℚ)
            ≤ 15 := by exact_mod_cast hle
        linarith
      · intro _
        show decide (min (ceilDiv (arr.tod - get_cutoff_time (pyWeekday arr.day)) 1800) 15 = 15)
            = true ↔ _
        rw [decide_eq_true_eq]
        exact (half_eq_full_iff _).symm

/-- Witness for C6 on a Saturday 19:00 arrival (2.5 hours, not full day). -/
theorem claim_C6_witness :
    computeDay ∅ 2 [(⟨2, 68400, "UB3"⟩ : Trip)] = some ⟨2, some 68400, 5, false⟩ ∧
    ((⟨2, some 68400, 5, false⟩ : OvertimeRecord).hoursQ ≤ 15 / 2 ∧
      ((2 : ℤ) ∉ (∅ : Finset ℤ) →
        ((⟨2, some 68400, 5, false⟩ : OvertimeRecord).fullDay = true ↔
          (⟨2, some 68400, 5, false⟩ : OvertimeRecord).hoursQ = 15 / 2))) :=
  ⟨by decide, claim_C6 ∅ 2 [⟨2, 68400, "UB3"⟩] ⟨2, some 68400, 5, false⟩ (by decide)⟩

/-- Claim C7 (confirmed): for a day outside the off-day set, the engine emits
nothing exactly when either no event of the day ends at the home code, or
the latest home arrival is at or before the cutoff (`diff_hours ≤ 0`); and
an arrival exactly one minute (60 s) after the cutoff yields 0.5 hours. -/
theorem claim_C7 (offDays : Finset ℤ) (day : ℤ) (events : List Trip)
    (hoff : day ∉ offDays) :
    (computeDay offDays day events = none ↔
      latestHome events = none ∨
        ∃ arr, latestHome events = some arr ∧
          arr.tod - get_cutoff_time (pyWeekday arr.day) ≤ 0) ∧
    (∀ arr, latestHome events = some arr →
      arr.tod = get_cutoff_time (pyWeekday arr.day) + 60 →
      ∃ r, computeDay offDays day events = some r ∧ r.hoursQ = 1 / 2) := by
  cases hl : latestHome events with
  | none =>
    refine ⟨?_, ?_⟩
    · rw [computeDay_none offDays day events hl]
      simp
    · intro arr harr _
      simp at harr
  | some arr =>
    have hc := computeDay_some offDays day events arr hl
    rw [if_neg hoff] at hc
    refine ⟨?_, ?_⟩
    · constructor
      · intro hnone
        by_cases h1 : 0 < arr.tod - get_cutoff_time (pyWeekday arr.day)
        · exfalso
          have hone : 1 ≤ ceilDiv (arr.tod - get_cutoff_time (pyWeekday arr.day)) 1800 :=
            one_le_ceilDiv _ _ h1 (by norm_num)
          have hmin : (1 : ℤ) ≤
              min (ceilDiv (arr.tod - get_cutoff_time (pyWeekday arr.day)) 1800) 15 :=
            le_min hone (by norm_num)
          rw [hc, if_pos h1, if_pos (lt_of_lt_of_le zero_lt_one hmin)] at hnone
          simp at hnone
        · exact Or.inr ⟨arr, rfl, by omega⟩
      · intro hcases
        rcases hcases with hnone | ⟨arr2, harr2, hle⟩
        · simp at hnone
        · have he : arr = arr2 := by injection harr2
          subst he
          rw [hc, if_neg (not_lt.mpr hle)]
    · intro arr2 harr2 htod
      have he : arr = arr2 := by injection harr2
      subst he
      have hdiff : arr.tod - get_cutoff_time (pyWeekday arr.day) = 60 := by omega
      refine ⟨⟨day, some arr.tod,
        min (ceilDiv (arr.tod - get_cutoff_time (pyWeekday arr.day)) 1800) 15,
        decide (min (ceilDiv (arr.tod - get_cutoff_time (pyWeekday arr.day)) 1800) 15 = 15)⟩,
        ?_, ?_⟩
      · rw [hc, if_pos (show (0 : ℤ) < arr.tod - get_cutoff_time (pyWeekday arr.day) by omega),
          if_pos (show (0 : ℤ) <
              min (ceilDiv (arr.tod - get_cutoff_time (pyWeekday arr.day)) 1800) 15 by
            rw [hdiff]; decide)]
      · show ((min (ceilDiv (arr.tod - get_cutoff_time (pyWeekday arr.day)) 1800) 15 : ℤ) : ℚ) / 2
          = 1 / 2
        rw [hdiff]
        norm_num [show min (ceilDiv 60 1800) 15 = (1 : ℤ) from by decide]

/-- Witness for C7: a Thursday with no trip events at all — no home arrival,
a normal empty outcome. -/
theorem claim_C7_witness :
    ((0 : ℤ) ∉ (∅ : Finset ℤ)) ∧
    ((computeDay ∅ 0 [] = none ↔
      latestHome [] = none ∨
        ∃ arr, latestHome [] = some arr ∧
          arr.tod - get_cutoff_time (pyWeekday arr.day) ≤ 0) ∧
    (∀ arr, latestHome [] = some arr →
      arr.tod = get_cutoff_time (pyWeekday arr.day) + 60 →
      ∃ r, computeDay ∅ 0 [] = some r ∧ r.hoursQ = 1 / 2)) :=
  ⟨by decide, claim_C7 ∅ 0 [] (by decide)⟩

/-- Claim C5 (confirmed): on a cutoff-branch day with `diff_hours > 0` whose
rounded value does not hit the 7.5-hour cap, the emitted `overtime_hours` is
exactly `ceil(diff_hours * 2) / 2`, hence at least `diff_hours` and less
than half an hour above it.  `diff_hours` is the time from cutoff to the
latest home arrival, `diff` seconds = `diff / 3600` hours. -/
theorem claim_C5 (offDays : Finset ℤ) (day : ℤ) (events : List Trip)
    (arr : Trip) (hoff : day ∉ offDays) (hlh : latestHome events = some arr)
    (hpos : 0 < arr.tod - get_cutoff_time (pyWeekday arr.day))
    (hcap : ceilDiv (arr.tod - get_cutoff_time (pyWeekday arr.day)) 1800 ≤ 15) :
    ∃ r, computeDay offDays day events = some r ∧
      r.hoursQ =
        (⌈(((arr.tod - get_cutoff_time (pyWeekday arr.day) : ℤ) : ℚ) / 3600) * 2⌉ : ℚ) / 2 ∧
      ((arr.tod - get_cutoff_time (pyWeekday arr.day) : ℤ) : ℚ) / 3600 ≤ r.hoursQ ∧
      r.hoursQ - ((arr.tod - get_cutoff_time (pyWeekday arr.day) : ℤ) : ℚ) / 3600 < 1 / 2 := by
  have hc := computeDay_some offDays day events arr hlh
  rw [if_neg hoff] at hc
  have hone : 1 ≤ ceilDiv (arr.tod - get_cutoff_time (pyWeekday arr.day)) 1800 :=
    one_le_ceilDiv _ _ hpos (by norm_num)
  have hmin : min (ceilDiv (arr.tod - get_cutoff_time (pyWeekday arr.day)) 1800) 15
      = ceilDiv (arr.tod - get_cutoff_time (pyWeekday arr.day)) 1800 := min_eq_left hcap
  have hmul : (((arr.tod - get_cutoff_time (pyWeekday arr.day) : ℤ) : ℚ) / 3600) * 2
      = ((arr.tod - get_cutoff_time (pyWeekday arr.day) : ℤ) : ℚ) / 1800 := by
    ring
  have hbridge : ceilDiv (arr.tod - get_cutoff_time (pyWeekday arr.day)) 1800
      = ⌈((arr.tod - get_cutoff_time (pyWeekday arr.day) : ℤ) : ℚ) / ((1800 : ℤ) : ℚ)⌉ :=
    ceilDiv_eq_ceil _ 1800 (by norm_num)
  have hb1800 : ((1800 : ℤ) : ℚ) = (1800 : ℚ) := by norm_num
  refine ⟨⟨day, some arr.tod,
    min (ceilDiv (arr.tod - get_cutoff_time (pyWeekday arr.day)) 1800) 15,
    decide (min (ceilDiv (arr.tod - get_cutoff_time (pyWeekday arr.day)) 1800) 15 = 15)⟩,
    ?_, ?_, ?_, ?_⟩
  · rw [hc, if_pos hpos, if_pos (lt_of_lt_of_le zero_lt_one (le_min hone (by norm_num)))]
  · show ((min (ceilDiv (arr.tod - get_cutoff_time (pyWeekday arr.day)) 1800) 15 : ℤ) : ℚ) / 2
      = (⌈(((arr.tod - get_cutoff_time (pyWeekday arr.day) : ℤ) : ℚ) / 3600) * 2⌉ : ℚ) / 2
    rw [hmin, hmul, hbridge, hb1800]
  · show ((arr.tod - get_cutoff_time (pyWeekday arr.day) : ℤ) : ℚ) / 3600
      ≤ ((min (ceilDiv (arr.tod - get_cutoff_time (pyWeekday arr.day)) 1800) 15 : ℤ) : ℚ) / 2
    rw [hmin, hbridge, hb1800]
    have hle := Int.le_ceil (((arr.tod - get_cutoff_time (pyWeekday arr.day) : ℤ) : ℚ) / 1800)
    linarith
  · show ((min (ceilDiv (arr.tod - get_cutoff_time (pyWeekday arr.day)) 1800) 15 : ℤ) : ℚ) / 2
      - ((arr.tod - get_cutoff_time (pyWeekday arr.day) : ℤ) : ℚ) / 3600 < 1 / 2
    rw [hmin, hbridge, hb1800]
    have hlt := Int.ceil_lt_add_one (((arr.tod - get_cutoff_time (pyWeekday arr.day) : ℤ) : ℚ) / 1800)
    linarith

/-- Witness for C5: Saturday (day 2 = 1970-01-03), home arrival 19:00
(68400 s), cutoff 16:30 — `diff` is 9000 s = 2.5 h, rounded hours 2.5. -/
theorem claim_C5_witness :
    ((2 : ℤ) ∉ (∅ : Finset ℤ)) ∧
    latestHome [(⟨2, 68400, "UB3"⟩ : Trip)] = some ⟨2, 68400, "UB3"⟩ ∧
    (0 : ℤ) < (⟨2, 68400, "UB3"⟩ : Trip).tod
      - get_cutoff_time (pyWeekday (⟨2, 68400, "UB3"⟩ : Trip).day) ∧
    ceilDiv ((⟨2, 68400, "UB3"⟩ : Trip).tod
      - get_cutoff_time (pyWeekday (⟨2, 68400, "UB3"⟩ : Trip).day)) 1800 ≤ 15 ∧
    (∃ r, computeDay ∅ 2 [(⟨2, 68400, "UB3"⟩ : Trip)] = some r ∧
      r.hoursQ =
        (⌈((((⟨2, 68400, "UB3"⟩ : Trip).tod
          - get_cutoff_time (pyWeekday (⟨2, 68400, "UB3"⟩ : Trip).day) : ℤ) : ℚ) / 3600) * 2⌉ : ℚ) / 2 ∧
      (((⟨2, 68400, "UB3"⟩ : Trip).tod
        - get_cutoff_time (pyWeekday (⟨2, 68400, "UB3"⟩ : Trip).day) : ℤ) : ℚ) / 3600 ≤ r.hoursQ ∧
      r.hoursQ - (((⟨2, 68400, "UB3"⟩ : Trip).tod
        - get_cutoff_time (pyWeekday (⟨2, 68400, "UB3"⟩ : Trip).day) : ℤ) : ℚ) / 3600 < 1 / 2) :=
  ⟨by decide, by rfl, by decide, by decide,
    claim_C5 ∅ 2 [⟨2, 68400, "UB3"⟩] ⟨2, 68400, "UB3"⟩ (by decide) (by rfl)
      (by decide) (by decide)⟩

/-- Claim C2 (code bug): the emitted records are NOT ordered by calendar date
ascending.  `overtime_df.sort_values("Date")` (source line 251) sorts the
already-formatted `"%d-%b-%Y"` strings lexicographically, so with home
arrivals after cutoff on 2024-03-10 (string `10-Mar-2024`) and 2024-04-09
(string `09-Apr-2024`) the run emits 9 April BEFORE 10 March — the later
calendar date first. -/
theorem claim_C2_failing :
    (overtimeTable ∅ tripsC2).map (fun r => r.day) =
      [days_from_civil 2024 4 9, days_from_civil 2024 3 10] ∧
    days_from_civil 2024 3 10 < days_from_civil 2024 4 9 ∧
    fmtDate (days_from_civil 2024 3 10) = "10-Mar-2024" ∧
    fmtDate (days_from_civil 2024 4 9) = "09-Apr-2024" ∧
    strLeB "09-Apr-2024" "10-Mar-2024" = true := by
  decide

/-- Claim C9 (confirmed): the location normalizer is total by construction;
non-string input yields the empty code, and a string that is not a fixed
alias and matches neither regex also yields the empty code — a normal
result, not an error. -/
theorem claim_C9 :
    extract_postcode PyVal.nonStr = "" ∧
    ∀ s : String,
      (lowerChars (trimChars s.toList) == "home".toList) = false →
      hasSubChars ("rico pudo".toList) (lowerChars (trimChars s.toList)) = false →
      searchWith tryFullAt s.toList = none →
      searchWith tryPartialAt s.toList = none →
      extract_postcode (PyVal.pstr s) = "" := by
  refine ⟨rfl, ?_⟩
  intro s h1 h2 h3 h4
  simp only [extract_postcode, h1, h2, h3, h4, Bool.false_eq_true, if_false]

/-- Witness for C9 on the matchless string `"12 34!"`. -/
theorem claim_C9_witness :
    (lowerChars (trimChars "12 34!".toList) == "home".toList) = false ∧
    hasSubChars ("rico pudo".toList) (lowerChars (trimChars "12 34!".toList)) = false ∧
    searchWith tryFullAt "12 34!".toList = none ∧
    searchWith tryPartialAt "12 34!".toList = none ∧
    extract_postcode (PyVal.pstr "12 34!") = "" :=
  ⟨by rfl, by rfl, by rfl, by rfl,
    claim_C9.2 "12 34!" (by rfl) (by rfl) (by rfl) (by rfl)⟩
